import Mathlib

/-!
Verification of the parser contract of `libmat2/abstract.py` (mat2).

The Python class `AbstractParser` is embedded shallowly:

* `firstCharOk` embeds the test `re.search('^[a-z0-9./]', filename) is None`
  (negated: `firstCharOk = true` iff the regex matches, i.e. the first
  character of the path is in the class `[a-z0-9./]`).
* `pathJoinDot` embeds `os.path.join('.', b)` (POSIX semantics: if `b`
  starts with a slash the result is `b`, otherwise `'.' + '/' + b`).
* `splitext` embeds `os.path.splitext` for POSIX paths (split at the last
  dot of the last component, unless all characters of the last component
  before that dot are themselves dots).
* `AbstractParser.init` embeds `AbstractParser.__init__`.
* `AbstractParser.set_edit_in_place` embeds `set_edit_in_place`; the path
  freshly allocated by `tempfile.mkstemp` is modelled by the parameter
  `tmp` (the directory-plus-random part chosen by the OS), to which the
  code's `suffix=ext` is appended.
* `AbstractParser.del_` embeds `__del__` over an explicit filesystem,
  modelled as an association list from path to file content. `shutil.move`
  and `os.remove` can fail spuriously (permissions, cross-device, disk
  full); this is modelled by the oracles `moveOk` / `removeOk`, and both
  also fail when the source path does not exist. The `DelResult.raised`
  field records whether an exception escapes to the caller (the code
  catches `Exception` around the move and `OSError` — the only exception
  `os.remove` raises — around the removal, so it is always `false`).
-/

/-- One character of the class `[a-z0-9./]` of the sanitization regex. -/
def isOkChar (c : Char) : Bool :=
  ('a' ≤ c && c ≤ 'z') || ('0' ≤ c && c ≤ '9') || (c == '.') || (c == '/')

/-- `re.search('^[a-z0-9./]', s) is not None`: the string is nonempty and
its first character is in the class `[a-z0-9./]`. -/
def firstCharOk (s : String) : Bool :=
  match s.data with
  | [] => false
  | c :: _ => isOkChar c

/-- `os.path.join('.', b)` with POSIX semantics: an absolute `b` replaces
the accumulated path, otherwise a single separator is inserted. -/
def pathJoinDot (b : String) : String :=
  if b.data.head? = some '/' then b else ⟨'.' :: '/' :: b.data⟩

/-- The sanitization step of `AbstractParser.__init__`: a path whose first
character is outside `[a-z0-9./]` is rewritten by `os.path.join('.', ...)`. -/
def sanitize (s : String) : String :=
  if firstCharOk s then s else pathJoinDot s

/-- `str.rfind` on a list of characters: index of the last occurrence of
`c`, or `-1` when `c` does not occur. -/
def rfindIdx (c : Char) : List Char → Int
  | [] => -1
  | x :: xs =>
    let r := rfindIdx c xs
    if 0 ≤ r then r + 1
    else if x == c then 0 else -1

/-- The scan of `genericpath._splitext`: is there an index `i` with
`lo ≤ i < hi` such that `l[i]` is not a dot?  (In the Python code this is
the loop that skips the leading dots of the last path component.) -/
def hasNonDotBetween (l : List Char) (lo hi : Int) : Bool :=
  (List.range l.length).any fun i =>
    decide (lo ≤ (i : Int)) && decide ((i : Int) < hi) && (l.getD i '.' != '.')

/-- `os.path.splitext` on the character list of a POSIX path, following
`genericpath._splitext` with `sep = '/'`, `extsep = '.'`, no `altsep`:
`sepIndex` is `p.rfind(sep)`, `dotIndex` is `p.rfind(extsep)`. -/
def splitextData (l : List Char) : List Char × List Char :=
  if rfindIdx '/' l < rfindIdx '.' l then
    if hasNonDotBetween l (rfindIdx '/' l + 1) (rfindIdx '.' l) then
      (l.take (rfindIdx '.' l).toNat, l.drop (rfindIdx '.' l).toNat)
    else (l, [])
  else (l, [])

/-- `os.path.splitext` on strings: root and extension. -/
def splitext (s : String) : String × String :=
  ((splitextData s.data).1.asString, (splitextData s.data).2.asString)

/-- The instance state of `AbstractParser`: the four attributes assigned by
`__init__` / `set_edit_in_place`. -/
structure AbstractParser where
  filename : String
  output_filename : String
  lightweight_cleaning : Bool
  in_place : Bool
deriving DecidableEq

/-- `AbstractParser.__init__`: sanitize the path, then derive the default
output filename `fname + '.cleaned' + extension` from the sanitized path. -/
def AbstractParser.init (filename : String) : AbstractParser :=
  let filename := sanitize filename
  let fe := splitext filename
  { filename := filename
    output_filename := fe.1 ++ ".cleaned" ++ fe.2
    lightweight_cleaning := false
    in_place := false }

/-- `set_edit_in_place`: the output filename becomes a fresh temporary path
carrying the source filename's extension (`tempfile.mkstemp(suffix=ext)`,
whose OS-chosen part is the parameter `tmp`), and `in_place` becomes true. -/
def AbstractParser.set_edit_in_place (tmp : String) (p : AbstractParser) : AbstractParser :=
  { p with
    output_filename := tmp ++ (splitext p.filename).2
    in_place := true }

/-- The caller-side assignment `p.lightweight_cleaning = b`. -/
def AbstractParser.set_lightweight_cleaning (b : Bool) (p : AbstractParser) : AbstractParser :=
  { p with lightweight_cleaning := b }

/-- A filesystem: an association list from path to file content. -/
def FS := List (String × String)

instance : DecidableEq FS := by
  unfold FS
  infer_instance

/-- Content stored at path `p`, if any. -/
def fsLookup : FS → String → Option String
  | [], _ => none
  | (q, c) :: rest, p => if q = p then some c else fsLookup rest p

/-- Remove every entry at path `p`. -/
def fsErase : FS → String → FS
  | [], _ => []
  | (q, c) :: rest, p => if q = p then fsErase rest p else (q, c) :: fsErase rest p

/-- Store content `c` at path `p`, replacing any previous entry. -/
def fsInsert (p : String) (c : String) (fs : FS) : FS :=
  (p, c) :: fsErase fs p

/-- `shutil.move src dst`: fails (`none`) when the source does not exist or
when the oracle `ok` reports an OS-level failure; on success the content
moves from `src` onto `dst`. -/
def fsMove (ok : Bool) (src dst : String) (fs : FS) : Option FS :=
  match fsLookup fs src with
  | none => none
  | some c => if ok then some (fsInsert dst c (fsErase fs src)) else none

/-- `os.remove p`: fails (`none`) when the path does not exist or when the
oracle `ok` reports an OS-level failure. -/
def fsRemove (ok : Bool) (p : String) (fs : FS) : Option FS :=
  match fsLookup fs p with
  | none => none
  | some _ => if ok then some (fsErase fs p) else none

/-- The first console report of `__del__`: the original was not cleaned. -/
def notCleanedMsg (p : AbstractParser) : String :=
  "[-] " ++ p.filename ++ " was NOT cleaned"

/-- The second console report of `__del__`: the temporary file could not be
removed. -/
def removeFailedMsg (p : AbstractParser) : String :=
  "[-] could not remove temporary file " ++ p.output_filename

/-- Outcome of `__del__`: the filesystem afterwards, the console reports
printed, and whether an exception escaped to the caller. -/
structure DelResult where
  fs : FS
  messages : List String
  raised : Bool
deriving DecidableEq

/-- `AbstractParser.__del__`: when `in_place` is set, try to move the
output file onto the original; if that fails, report it and try to remove
the temporary file, swallowing (with a report) a failure of that removal. -/
def AbstractParser.del_ (moveOk removeOk : Bool) (p : AbstractParser) (fs : FS) : DelResult :=
  if p.in_place then
    match fsMove moveOk p.output_filename p.filename fs with
    | some fs2 => { fs := fs2, messages := [], raised := false }
    | none =>
      match fsRemove removeOk p.output_filename fs with
      | some fs2 => { fs := fs2, messages := [notCleanedMsg p], raised := false }
      | none => { fs := fs, messages := [notCleanedMsg p, removeFailedMsg p], raised := false }
  else { fs := fs, messages := [], raised := false }

/-- The caller-visible mutating operations of the contract that return the
instance: entering in-place mode and setting the cleaning flag.
(`__del__` mutates no attribute, so it is absent here.) -/
inductive ParserOp
  | edit (tmp : String)
  | light (b : Bool)

/-- Apply one operation to the instance state. -/
def applyOp (op : ParserOp) (p : AbstractParser) : AbstractParser :=
  match op with
  | .edit tmp => p.set_edit_in_place tmp
  | .light b => p.set_lightweight_cleaning b

/-- Apply a sequence of operations to the instance state. -/
def applyOps (ops : List ParserOp) (p : AbstractParser) : AbstractParser :=
  match ops with
  | [] => p
  | op :: rest => applyOps rest (applyOp op p)

/-! ### Helper lemmas -/

theorem data_asString (l : List Char) : l.asString.data = l := rfl

theorem asString_append (a b : List Char) :
    a.asString ++ b.asString = (a ++ b).asString := by
  apply String.ext
  rw [String.data_append]
  rfl

theorem sanitize_of_firstCharOk (s : String) (h : firstCharOk s = true) :
    sanitize s = s := by
  unfold sanitize
  rw [h]
  rfl

theorem sanitize_of_not_firstCharOk (s : String) (h : firstCharOk s = false) :
    sanitize s = "./" ++ s := by
  unfold sanitize
  rw [h]
  simp only [Bool.false_eq_true, if_false]
  unfold pathJoinDot
  cases s with
  | mk data =>
    cases data with
    | nil => rfl
    | cons c cs =>
      have hc : isOkChar c = false := h
      have hne : c ≠ '/' := by
        intro he
        rw [he] at hc
        exact absurd hc (by decide)
      rw [if_neg]
      · apply String.ext
        rw [String.data_append]
        rfl
      · intro he
        have he2 : some c = some '/' := he
        injection he2 with he3
        exact hne he3

theorem firstCharOk_sanitize (s : String) : firstCharOk (sanitize s) = true := by
  cases hb : firstCharOk s with
  | true =>
    rw [sanitize_of_firstCharOk s hb]
    exact hb
  | false =>
    rw [sanitize_of_not_firstCharOk s hb]
    cases s with
    | mk data => rfl

theorem splitextData_join (l : List Char) :
    (splitextData l).1 ++ (splitextData l).2 = l := by
  unfold splitextData
  split
  · split
    · exact List.take_append_drop _ _
    · simp
  · simp

theorem splitext_join (s : String) : (splitext s).1 ++ (splitext s).2 = s := by
  have h : (splitext s).1 ++ (splitext s).2
      = ((splitextData s.data).1 ++ (splitextData s.data).2).asString :=
    asString_append _ _
  rw [h, splitextData_join]
  cases s with
  | mk data => rfl

theorem fsLookup_fsErase_self (fs : FS) (p : String) :
    fsLookup (fsErase fs p) p = none := by
  induction fs with
  | nil => rfl
  | cons e rest ih =>
    obtain ⟨q, c⟩ := e
    by_cases hq : q = p
    · simp only [fsErase, if_pos hq]
      exact ih
    · simp only [fsErase, if_neg hq, fsLookup]
      exact ih

theorem fsLookup_fsErase_ne (fs : FS) (p q : String) (h : q ≠ p) :
    fsLookup (fsErase fs p) q = fsLookup fs q := by
  induction fs with
  | nil => rfl
  | cons e rest ih =>
    obtain ⟨r, c⟩ := e
    by_cases hr : r = p
    · simp only [fsErase, if_pos hr, fsLookup]
      rw [ih, if_neg]
      intro he
      exact h (he.symm.trans hr)
    · simp only [fsErase, if_neg hr, fsLookup]
      by_cases hq : r = q
      · rw [if_pos hq, if_pos hq]
      · rw [if_neg hq, if_neg hq]
        exact ih

/-! ### Claim theorems -/

/-- C1: a path whose first character is outside `[a-z0-9./]` is rewritten
at construction to the explicitly relative form `"./" ++ path`, while a
path whose first character is in the class is stored unchanged; and the
output filename is derived (by `os.path.splitext`) from the stored,
already-rewritten filename, so the rewrite happens before derivation. -/
theorem construction_sanitizes_before_derivation (s : String) :
    (AbstractParser.init s).filename = (if firstCharOk s then s else "./" ++ s)
    ∧ (AbstractParser.init s).output_filename =
        (splitext (AbstractParser.init s).filename).1 ++ ".cleaned"
          ++ (splitext (AbstractParser.init s).filename).2 := by
  constructor
  · show sanitize s = _
    cases hb : firstCharOk s with
    | true =>
      rw [if_pos rfl]
      exact sanitize_of_firstCharOk s hb
    | false =>
      rw [if_neg (by simp)]
      exact sanitize_of_not_firstCharOk s hb
  · rfl

/-- C2 counterexample: the claim says construction with the empty string
fails with an `InvalidInput` error (`ValueError`); but the body of
`AbstractParser.__init__` has no failure path at all — it sanitizes the
empty string to `"./"` (via `os.path.join('.', '')`) and produces a normal
instance with output filename `"./.cleaned"`. -/
theorem empty_path_constructs_instance :
    (AbstractParser.init "").filename = "./"
    ∧ (AbstractParser.init "").output_filename = "./.cleaned" := by
  decide

/-- C2 amended: construction never fails in the contract layer — for every
path, including the empty string, the constructor yields an instance whose
filename is the sanitized path and whose flags start out false; raising
`ValueError` on invalid files is left to the concrete handlers. -/
theorem construction_is_total (s : String) :
    (AbstractParser.init s).filename = sanitize s
    ∧ (AbstractParser.init s).in_place = false
    ∧ (AbstractParser.init s).lightweight_cleaning = false :=
  ⟨rfl, rfl, rfl⟩

/-- C3: for every path, the constructed output filename is
`stem + ".cleaned" + ext`, where `(stem, ext)` is `os.path.splitext` of the
sanitized path; the pair really is a split of the sanitized path
(`stem ++ ext` restores it), so the extension is carried over verbatim as
the final segment of the output filename. -/
theorem output_filename_derivation (s : String) :
    (AbstractParser.init s).output_filename =
      (splitext (sanitize s)).1 ++ ".cleaned" ++ (splitext (sanitize s)).2
    ∧ (splitext (sanitize s)).1 ++ (splitext (sanitize s)).2 = sanitize s :=
  ⟨rfl, splitext_join (sanitize s)⟩

/-- C9: after construction the stored filename always begins with a
character of `[a-z0-9./]`, and when the path is rewritten the result is
exactly `'.' :: '/' ::` the original characters — sanitization never
drops, escapes or alters any character beyond prepending `"./"`. -/
theorem sanitized_first_char_invariant (s : String) :
    firstCharOk (AbstractParser.init s).filename = true
    ∧ ((AbstractParser.init s).filename).data =
        (if firstCharOk s then s.data else '.' :: '/' :: s.data) := by
  refine ⟨firstCharOk_sanitize s, ?_⟩
  show (sanitize s).data = _
  cases hb : firstCharOk s with
  | true =>
    rw [if_pos rfl, sanitize_of_firstCharOk s hb]
  | false =>
    rw [if_neg (by simp), sanitize_of_not_firstCharOk s hb, String.data_append]
    rfl

/-- C10: when the sanitized path has no extension, the output filename is
the sanitized path with `".cleaned"` appended at the very end. -/
theorem no_extension_output (s : String)
    (h : (splitext (sanitize s)).2 = "") :
    (AbstractParser.init s).output_filename = sanitize s ++ ".cleaned" := by
  have hj := splitext_join (sanitize s)
  rw [h] at hj
  show (splitext (sanitize s)).1 ++ ".cleaned" ++ (splitext (sanitize s)).2
      = sanitize s ++ ".cleaned"
  rw [h]
  have he1 : (splitext (sanitize s)).1 ++ "" = (splitext (sanitize s)).1 := by
    apply String.ext
    rw [String.data_append]
    exact List.append_nil _
  rw [he1] at hj
  have he2 : (splitext (sanitize s)).1 ++ ".cleaned" ++ ""
      = (splitext (sanitize s)).1 ++ ".cleaned" := by
    apply String.ext
    rw [String.data_append]
    exact List.append_nil _
  rw [he2, hj]

/-- C10 witness: the dotfile `"./.config"` is treated entirely as stem
(empty extension), so the output filename is `"./.config.cleaned"`. -/
theorem no_extension_output_witness :
    (splitext (sanitize "./.config")).2 = ""
    ∧ (AbstractParser.init "./.config").output_filename
        = sanitize "./.config" ++ ".cleaned"
    ∧ (AbstractParser.init "./.config").output_filename = "./.config.cleaned" :=
  ⟨by decide, no_extension_output "./.config" (by decide), by decide⟩

/-- C4: after any `set_edit_in_place`, `in_place` is true and the output
filename is the freshly allocated temporary path (modelled by `tmp`, the
part chosen by `tempfile.mkstemp`) carrying exactly the source filename's
extension as suffix; and in the default state after construction the
output filename likewise ends in the stored filename's extension, so the
extension-derivation invariant holds in both states. -/
theorem in_place_output_extension (p : AbstractParser) (tmp s : String) :
    (p.set_edit_in_place tmp).in_place = true
    ∧ (p.set_edit_in_place tmp).output_filename = tmp ++ (splitext p.filename).2
    ∧ (p.set_edit_in_place tmp).filename = p.filename
    ∧ ∃ stem, (AbstractParser.init s).output_filename
        = stem ++ (splitext (AbstractParser.init s).filename).2 :=
  ⟨rfl, rfl, rfl, ⟨(splitext (sanitize s)).1 ++ ".cleaned", rfl⟩⟩

/-- C7: for an instance that never entered in-place mode (`in_place` is
false), end-of-life performs no filesystem operation at all — the
filesystem is returned unchanged, nothing is printed, nothing raised. -/
theorem del_no_in_place_no_effect (moveOk removeOk : Bool) (p : AbstractParser)
    (fs : FS) (h : p.in_place = false) :
    p.del_ moveOk removeOk fs = ⟨fs, [], false⟩ := by
  unfold AbstractParser.del_
  rw [h]
  rfl

/-- C7 witness: a freshly constructed instance has `in_place = false`, and
its end-of-life leaves a concrete filesystem untouched. -/
theorem del_no_in_place_no_effect_witness :
    (AbstractParser.init "a.png").in_place = false
    ∧ (AbstractParser.init "a.png").del_ true true [("a.png", "bytes")]
        = ⟨[("a.png", "bytes")], [], false⟩ :=
  ⟨by decide,
   del_no_in_place_no_effect true true (AbstractParser.init "a.png")
     [("a.png", "bytes")] (by decide)⟩

/-- C8: the stored filename is immutable — any sequence of the contract's
mutating operations (`set_edit_in_place`, setting `lightweight_cleaning`)
leaves `filename` equal to its value at construction time; `__del__`
assigns no attribute, so it is not among the state-returning operations. -/
theorem filename_immutable (p : AbstractParser) (ops : List ParserOp) :
    (applyOps ops p).filename = p.filename := by
  induction ops generalizing p with
  | nil => rfl
  | cons op rest ih =>
    cases op with
    | edit tmp => exact ih (p.set_edit_in_place tmp)
    | light b => exact ih (p.set_lightweight_cleaning b)

/-- C5: for an in-place instance whose end-of-life move of the output file
onto the original fails, nothing is raised to the caller, the content at
the original filename is unchanged, the failure is reported first, the
removal of the temporary file is attempted (its result is taken when it
succeeds), and a failure of that secondary removal is itself swallowed
with a second report while the filesystem stays untouched. -/
theorem del_move_failure_reports (moveOk removeOk : Bool) (p : AbstractParser)
    (fs : FS) (hin : p.in_place = true)
    (hne : p.output_filename ≠ p.filename)
    (hmv : fsMove moveOk p.output_filename p.filename fs = none) :
    (p.del_ moveOk removeOk fs).raised = false
    ∧ fsLookup (p.del_ moveOk removeOk fs).fs p.filename = fsLookup fs p.filename
    ∧ (p.del_ moveOk removeOk fs).messages.head? = some (notCleanedMsg p)
    ∧ (fsRemove removeOk p.output_filename fs = none →
        (p.del_ moveOk removeOk fs).messages
            = [notCleanedMsg p, removeFailedMsg p]
          ∧ (p.del_ moveOk removeOk fs).fs = fs)
    ∧ (∀ fs2, fsRemove removeOk p.output_filename fs = some fs2 →
        (p.del_ moveOk removeOk fs).fs = fs2) := by
  unfold AbstractParser.del_
  rw [hin, hmv]
  cases hrm : fsRemove removeOk p.output_filename fs with
  | none =>
    refine ⟨rfl, rfl, rfl, fun _ => ⟨rfl, rfl⟩, ?_⟩
    intro fs2 he
    cases he
  | some fs2 =>
    refine ⟨rfl, ?_, rfl, ?_, ?_⟩
    · show fsLookup fs2 p.filename = fsLookup fs p.filename
      unfold fsRemove at hrm
      split at hrm
      · cases hrm
      · split at hrm
        · injection hrm with hrm2
          rw [← hrm2]
          exact fsLookup_fsErase_ne fs p.output_filename p.filename
            fun he => hne he.symm
        · cases hrm
    · intro he
      cases he
    · intro fs3 he
      cases he
      rfl

/-- C5 witness: a concrete in-place instance whose move and removal both
fail — nothing is raised, the original entry is untouched, and both
failures are reported. -/
theorem del_move_failure_reports_witness :
    (AbstractParser.mk "./a.png" "./t.png" false true).in_place = true
    ∧ "./t.png" ≠ "./a.png"
    ∧ ((AbstractParser.mk "./a.png" "./t.png" false true).del_ false false
        [("./a.png", "orig"), ("./t.png", "tmp")]).raised = false
    ∧ fsLookup ((AbstractParser.mk "./a.png" "./t.png" false true).del_ false false
        [("./a.png", "orig"), ("./t.png", "tmp")]).fs "./a.png"
        = fsLookup [("./a.png", "orig"), ("./t.png", "tmp")] "./a.png"
    ∧ ((AbstractParser.mk "./a.png" "./t.png" false true).del_ false false
        [("./a.png", "orig"), ("./t.png", "tmp")]).messages
        = [notCleanedMsg (AbstractParser.mk "./a.png" "./t.png" false true),
           removeFailedMsg (AbstractParser.mk "./a.png" "./t.png" false true)] :=
  ⟨by decide, by decide,
   (del_move_failure_reports false false (AbstractParser.mk "./a.png" "./t.png" false true)
     [("./a.png", "orig"), ("./t.png", "tmp")] (by decide) (by decide) (by decide)).1,
   (del_move_failure_reports false false (AbstractParser.mk "./a.png" "./t.png" false true)
     [("./a.png", "orig"), ("./t.png", "tmp")] (by decide) (by decide) (by decide)).2.1,
   ((del_move_failure_reports false false (AbstractParser.mk "./a.png" "./t.png" false true)
     [("./a.png", "orig"), ("./t.png", "tmp")] (by decide) (by decide) (by decide)).2.2.2.1
     (by decide)).1⟩

/-- C6 counterexample: the claim says a second invocation of the
end-of-life operation is a no-op performing no filesystem move and no
state change; but `__del__` never clears `in_place`, so when the first
invocation's move and removal both failed (oracles false) and the
temporary file still exists, a second invocation performs the move and
changes the filesystem. -/
theorem del_second_call_moves :
    (AbstractParser.del_ true true (AbstractParser.mk "./a.png" "./t.png" false true)
        ((AbstractParser.del_ false false (AbstractParser.mk "./a.png" "./t.png" false true)
          [("./a.png", "orig"), ("./t.png", "tmp")]).fs)).fs
    ≠ ((AbstractParser.del_ false false (AbstractParser.mk "./a.png" "./t.png" false true)
          [("./a.png", "orig"), ("./t.png", "tmp")]).fs) := by
  decide

/-- C6 amended: the end-of-life handler has no once-only guard (`in_place`
is never cleared), so a second invocation re-runs the swap logic; after a
first successful swap the second invocation changes no filesystem state —
the temporary path no longer exists, so its move and its removal both fail
and are swallowed — but it re-attempts them and prints spurious failure
reports; and when the first swap failed leaving the temporary file behind,
a second invocation can perform the move (see the counterexample). -/
theorem del_second_call_after_success (p : AbstractParser) (fs fs2 : FS)
    (moveOk removeOk : Bool) (hin : p.in_place = true)
    (hne : p.output_filename ≠ p.filename)
    (hmv : fsMove true p.output_filename p.filename fs = some fs2) :
    p.del_ moveOk removeOk fs2
      = ⟨fs2, [notCleanedMsg p, removeFailedMsg p], false⟩ := by
  have hl2 : fsLookup fs2 p.output_filename = none := by
    unfold fsMove at hmv
    split at hmv
    · cases hmv
    · split at hmv
      · injection hmv with hmv2
        rw [← hmv2]
        simp only [fsInsert, fsLookup]
        rw [if_neg fun he => hne he.symm]
        rw [fsLookup_fsErase_ne _ _ _ hne]
        exact fsLookup_fsErase_self fs p.output_filename
      · cases hmv
  unfold AbstractParser.del_
  rw [hin]
  unfold fsMove fsRemove
  rw [hl2]
  rfl

/-- C6 amended witness: a concrete successful first swap, after which a
second invocation leaves the filesystem unchanged but emits both failure
reports. -/
theorem del_second_call_after_success_witness :
    fsMove true "./t.png" "./a.png" [("./a.png", "orig"), ("./t.png", "tmp")]
        = some [("./a.png", "tmp")]
    ∧ (AbstractParser.mk "./a.png" "./t.png" false true).del_ true true
        [("./a.png", "tmp")]
        = ⟨[("./a.png", "tmp")],
           [notCleanedMsg (AbstractParser.mk "./a.png" "./t.png" false true),
            removeFailedMsg (AbstractParser.mk "./a.png" "./t.png" false true)],
           false⟩ :=
  ⟨by decide,
   del_second_call_after_success (AbstractParser.mk "./a.png" "./t.png" false true)
     [("./a.png", "orig"), ("./t.png", "tmp")] [("./a.png", "tmp")] true true
     (by decide) (by decide) (by decide)⟩

/-! ### Sanity checks of the embedding against the Python behaviour -/

example : sanitize "" = "./" := by decide

example : sanitize "-evil" = "./-evil" := by decide

example : sanitize "/tmp/x" = "/tmp/x" := by decide

example : splitext "a/b.tar.gz" = ("a/b.tar", ".gz") := by decide

example : splitext "./" = ("./", "") := by decide

example : (AbstractParser.init "dirty.jpg").output_filename = "dirty.cleaned.jpg" := by
  decide
